import Mathlib

/-!
Verification development for the EZ-NoteTaker capture-to-insertion pipeline.

The definitions below are shallow embeddings of the JavaScript source:

* `parseSelectionForInsert`   — src docsInsert.js (part_014 lines 51-85)
* `insertHighlightToDoc`      — part_014 lines 91-230, network calls modelled
  as an environment of HTTP results and an emitted call trace
* `getDocumentSections`       — part_014 lines 242-305 (pure core over the
  fetched body content)
* `insertHighlightAtPosition` — part_014 lines 310-419
* `cropImage` crop rectangle  — src snip overlay (part_000 lines 155-173)
* `ensureResearchSnipsFolder` — src/frontend/src/background/googleDrive.js 41-73
* `withTokenRetry`            — src/frontend/src/background/auth.js 149-165

JavaScript numbers that hold document indices are modelled as `Int` where a
subtraction may go negative and as `Nat` where the source only ever holds
non-negative counts.  JavaScript string `.length` (UTF-16 units) coincides
with codepoint count on the BMP strings manipulated here.
-/

/-! ## JavaScript string primitives -/

/-- Characters matched by the JavaScript regex class `\s` (the set used by
`String.prototype.trimStart` as well). -/
def isJsWhitespace (c : Char) : Bool :=
  c = ' ' || c = '\t' || c = '\n' || c = '\r' ||
  c = (Char.ofNat 11) || c = (Char.ofNat 12) ||       -- \v \f
  c = (Char.ofNat 160) || c = (Char.ofNat 0x1680) ||  -- nbsp, ogham
  (0x2000 ≤ c.toNat && c.toNat ≤ 0x200A) ||
  c = (Char.ofNat 0x2028) || c = (Char.ofNat 0x2029) ||
  c = (Char.ofNat 0x202F) || c = (Char.ofNat 0x205F) ||
  c = (Char.ofNat 0x3000) || c = (Char.ofNat 0xFEFF)

/-- Bullet glyphs of `BULLET_PATTERN` (part_014 line 43): `•ᐧ·▪◦-*`. -/
def isBulletGlyph (c : Char) : Bool :=
  c = (Char.ofNat 0x2022) || c = (Char.ofNat 0xB7) ||
  c = (Char.ofNat 0x25AA) || c = (Char.ofNat 0x25E6) ||
  c = '-' || c = '*'

/-- Match of `BULLET_PATTERN = /^[\s\t]*([•·▪◦\-*]\s+)/` followed by
`.replace(BULLET_PATTERN, '').trimStart()`: leading whitespace, one bullet
glyph, at least one whitespace character; the returned string is the rest of
the line with its own leading whitespace removed (the greedy `\s+` together
with `trimStart` removes all of it). -/
def matchBullet (line : String) : Option String :=
  match line.toList.dropWhile isJsWhitespace with
  | [] => none
  | c :: rest =>
    if isBulletGlyph c then
      match rest with
      | [] => none
      | d :: _ =>
        if isJsWhitespace d then some (String.mk (rest.dropWhile isJsWhitespace))
        else none
    else none

/-- Match of `NUMBERED_PATTERN = /^[\s\t]*(\d+[.)]\s+)/` followed by
`.replace(NUMBERED_PATTERN, '').trimStart()`: leading whitespace, one or more
decimal digits, `.` or `)`, at least one whitespace character. -/
def matchNumbered (line : String) : Option String :=
  let afterWs := line.toList.dropWhile isJsWhitespace
  let digits := afterWs.takeWhile Char.isDigit
  let afterDigits := afterWs.dropWhile Char.isDigit
  if digits.isEmpty then none
  else
    match afterDigits with
    | [] => none
    | c :: rest =>
      if c = '.' || c = ')' then
        match rest with
        | [] => none
        | d :: _ =>
          if isJsWhitespace d then some (String.mk (rest.dropWhile isJsWhitespace))
          else none
      else none

/-- JavaScript `selectedText.split(/\\n/)`: split into lines at newline
characters, keeping empty segments (structural recursion on the character
list, so that concrete scenarios evaluate inside the kernel). -/
def splitLinesAux : List Char → List (List Char)
  | [] => [[]]
  | c :: rest =>
    match splitLinesAux rest with
    | [] => [[]]
    | l :: ls => if c = '\n' then [] :: l :: ls else (c :: l) :: ls

/-- String-level wrapper of `splitLinesAux`. -/
def jsSplitNewline (s : String) : List String :=
  (splitLinesAux s.toList).map String.mk

/-! ## ContentFormatter: `parseSelectionForInsert` (part_014 lines 51-85) -/

/-- Half-open character range `{ start, end }` as pushed into
`bulletRanges` / `numberedRanges`.  The source field `end` is a Lean keyword
and is rendered `endIdx`. -/
structure TextRange where
  start : Nat
  endIdx : Nat
deriving DecidableEq, Repr

/-- Loop state of the `for (const line of lines)` loop: the running `offset`
(starting at 1, after the leading newline), the collected `parts`, and the
two range lists. -/
structure ParseState where
  offset : Nat
  parts : List String
  bulletRanges : List TextRange
  numberedRanges : List TextRange
deriving Repr

/-- One iteration of the line loop (part_014 lines 58-80).  A bullet line is
stripped and re-measured; a numbered line likewise (only checked when the
bullet pattern did not match); a plain line is kept verbatim except that a
fully empty line becomes a single space — note that in the plain branch the
source keeps `lineLen = line.length + 1` computed before that replacement. -/
def stepLine (st : ParseState) (line : String) : ParseState :=
  match matchBullet line with
  | some c0 =>
    let content := if c0 = "" then " " else c0
    { offset := st.offset + (content.length + 1)
      parts := st.parts ++ [content]
      bulletRanges := st.bulletRanges ++ [⟨st.offset, st.offset + content.length + 1⟩]
      numberedRanges := st.numberedRanges }
  | none =>
    match matchNumbered line with
    | some c0 =>
      let content := if c0 = "" then " " else c0
      { offset := st.offset + (content.length + 1)
        parts := st.parts ++ [content]
        bulletRanges := st.bulletRanges
        numberedRanges := st.numberedRanges ++ [⟨st.offset, st.offset + content.length + 1⟩] }
    | none =>
      let content := if line = "" then " " else line
      { offset := st.offset + (line.length + 1)
        parts := st.parts ++ [content]
        bulletRanges := st.bulletRanges
        numberedRanges := st.numberedRanges }

/-- Result record of `parseSelectionForInsert`. -/
structure ParseResult where
  textToInsert : String
  bulletRanges : List TextRange
  numberedRanges : List TextRange
  quoteLen : Nat
deriving Repr

/-- `parseSelectionForInsert(selectedText, sourceLabel, title, timeStr)`
(part_014 lines 51-85): split on newlines, classify each line, rejoin with
`\n`, prepend a leading `\n` and append `sourceLabel + title + timeStr`. -/
def parseSelectionForInsert (selectedText sourceLabel title timeStr : String) :
    ParseResult :=
  let lines := jsSplitNewline selectedText
  let st := lines.foldl stepLine ⟨1, [], [], []⟩
  let quoteText := String.intercalate "\n" st.parts
  let fullText := "\n" ++ quoteText ++ sourceLabel ++ title ++ timeStr
  ⟨fullText, st.bulletRanges, st.numberedRanges, quoteText.length⟩

/-- Substring of `s` covered by the half-open codepoint range `[a, b)`; used
to state which text a recorded range covers. -/
def sliceChars (s : String) (a b : Nat) : String :=
  String.mk ((s.toList.drop a).take (b - a))

/-! ## DocumentStructureIndexer: `getDocumentSections` (part_014 lines 242-305)

The network fetch is modelled away: the pure core below receives the decoded
`data.body.content` list and computes the outline exactly as the walk in the
source does. -/

/-- `textRun` field of a paragraph element. -/
structure TextRun where
  content : Option String
deriving Repr, DecidableEq

/-- One entry of `paragraph.elements`. -/
structure ParagraphElement where
  textRun : Option TextRun
deriving Repr, DecidableEq

/-- `paragraph.paragraphStyle`. -/
structure ParagraphStyle where
  namedStyleType : Option String
deriving Repr, DecidableEq

/-- `paragraph` member of a structural element. -/
structure Paragraph where
  paragraphStyle : Option ParagraphStyle
  elements : Option (List ParagraphElement)
deriving Repr, DecidableEq

/-- One structural element of `body.content`. -/
structure DocElement where
  startIndex : Option Nat
  endIndex : Option Nat
  paragraph : Option Paragraph
deriving Repr, DecidableEq

/-- `HEADING_STYLES` (part_014 line 232). -/
def HEADING_STYLES : List String :=
  ["HEADING_1", "HEADING_2", "HEADING_3", "HEADING_4", "HEADING_5",
   "HEADING_6", "TITLE", "SUBTITLE"]

/-- `const end = el.endIndex ?? el.startIndex ?? 0`. -/
def elEnd (el : DocElement) : Nat :=
  match el.endIndex with
  | some e => e
  | none => el.startIndex.getD 0

/-- `para && HEADING_STYLES.has(para.paragraphStyle?.namedStyleType)`. -/
def isHeadingEl (el : DocElement) : Bool :=
  match el.paragraph with
  | none => false
  | some para =>
    match para.paragraphStyle with
    | none => false
    | some ps =>
      match ps.namedStyleType with
      | none => false
      | some s => HEADING_STYLES.contains s

/-- JavaScript `text.replace(/\\n/g, ' ')`: every newline becomes a space. -/
def newlinesToSpaces (s : String) : String :=
  String.mk (s.toList.map (fun c => if c = '\n' then ' ' else c))

/-- JavaScript `String.prototype.trim` over the `\s` character class. -/
def jsTrim (s : String) : String :=
  String.mk (((s.toList.dropWhile isJsWhitespace).reverse.dropWhile isJsWhitespace).reverse)

/-- Label of a heading element:
`text.replace(/\n/g, ' ').trim().slice(0, 60) || '(unnamed)'` where `text`
concatenates the `textRun.content` of the paragraph's elements. -/
def headingLabelOf (el : DocElement) : String :=
  let raw :=
    match el.paragraph with
    | none => ""
    | some para =>
      (para.elements.getD []).foldl
        (fun (acc : String) (e : ParagraphElement) =>
          match e.textRun with
          | some tr => acc ++ tr.content.getD ""
          | none => acc) ""
  let cleaned := String.mk ((jsTrim (newlinesToSpaces raw)).toList.take 60)
  if cleaned = "" then "(unnamed)" else cleaned

/-- Overwrite the last element of a list, modelling
`xs[xs.length - 1] = v` (a no-op on the empty list, which mirrors the
source's `length > 0` guards around these assignments). -/
def setLast : List (Option Nat) → Nat → List (Option Nat)
  | [], _ => []
  | [_], v => [some v]
  | x :: y :: rest, v => x :: setLast (y :: rest) v

/-- Walk state of the `for (const el of content)` loop. -/
structure SectionsState where
  maxEnd : Nat
  lastContentEnd : Nat
  headingLabels : List String
  sectionEndIndices : List (Option Nat)
deriving Repr

/-- One iteration of the walk (part_014 lines 269-294): track the running
maximum end offset; on a heading, close the previously open heading (if any)
at `max(1, lastContentEnd - 1)` and open a new one; on a body element,
remember its end offset. -/
def stepSectionEl (st : SectionsState) (el : DocElement) : SectionsState :=
  let e := elEnd el
  let maxEnd' := if e > st.maxEnd then e else st.maxEnd
  if isHeadingEl el then
    let closed :=
      if st.headingLabels.isEmpty then st.sectionEndIndices
      else setLast st.sectionEndIndices (max 1 (st.lastContentEnd - 1))
    { maxEnd := maxEnd'
      lastContentEnd := st.lastContentEnd
      headingLabels := st.headingLabels ++ [headingLabelOf el]
      sectionEndIndices := closed ++ [none] }
  else
    { maxEnd := maxEnd'
      lastContentEnd := e
      headingLabels := st.headingLabels
      sectionEndIndices := st.sectionEndIndices }

/-- One named insertion point `{ label, index }`. -/
structure DocSection where
  label : String
  index : Nat
deriving DecidableEq, Repr

/-- Pure core of `getDocumentSections` (part_014 lines 264-304) over the
fetched `body.content`: walk the elements, close the last open heading, then
assemble `{At the beginning, 1}`, one entry per heading (falling back to
`maxEnd` for an index never closed — unreachable by construction), and
`{At the end, maxEnd}`.  `headingLabels` and `sectionEndIndices` always have
equal length (they are pushed together), so the `zipWith` is the source's
indexed loop. -/
def getDocumentSections (content : List DocElement) : List DocSection :=
  let st := content.foldl stepSectionEl ⟨1, 1, [], []⟩
  let secIdx := setLast st.sectionEndIndices (max 1 (st.lastContentEnd - 1))
  ⟨"At the beginning", 1⟩ ::
    (List.zipWith (fun l o => DocSection.mk ("End of section: " ++ l) (o.getD st.maxEnd))
      st.headingLabels secIdx)
    ++ [⟨"At the end", st.maxEnd⟩]

/-! ## InsertionOrchestrator: remote-call model

The Docs API calls of `insertHighlightToDoc` / `insertHighlightAtPosition`
are modelled by an environment that supplies each network round-trip's
outcome, and the functions additionally return the ordered trace of calls
they issued.  An `HttpResult` is `unauthorized` for status 401,
`httpError m` for any other non-2xx response (`m` being the message the
source extracts from the response body), or `ok`. -/

/-- Outcome of one HTTP round-trip. -/
inductive HttpResult (α : Type) where
  | unauthorized : HttpResult α
  | httpError (message : String) : HttpResult α
  | ok (v : α) : HttpResult α
deriving DecidableEq, Repr

/-- One request inside a `batchUpdate` body. -/
inductive DocsRequest where
  | insertTextEndOfSegment (text : String)
  | insertTextAt (index : Int) (text : String)
  | createParagraphBullets (startIndex endIndex : Int) (bulletPreset : String)
  | updateTextStyleLink (startIndex endIndex : Int) (url : String)
deriving DecidableEq, Repr

/-- One network call issued against the Docs API. -/
inductive DocsCall where
  | batchUpdate (requests : List DocsRequest)
  | getEndIndex
deriving DecidableEq, Repr

/-- The `data` argument `{ selectedText, pageUrl, pageTitle, timestamp }`. -/
structure HighlightData where
  selectedText : String
  pageUrl : String
  pageTitle : String
  timestamp : String
deriving Repr

/-- Environment for `insertHighlightToDoc`: results of the insert
`batchUpdate`, the end-index re-fetch, the list-format `batchUpdate`
(consumed only when issued) and the link-style `batchUpdate`. -/
structure DocsEnv where
  insertResult : HttpResult Unit
  endIndexAfterInsert : HttpResult Nat
  formatResult : HttpResult Unit
  linkResult : HttpResult Unit

/-- The `extraRequests` construction shared by part_014 lines 142-169 and
356-377: at most one `createParagraphBullets` per class, bullets first,
spanning from the first recorded range's `start` to the last recorded
range's `end`, both offset by the resolved insertion start. -/
def listFormatRequests (insertStart : Int) (bullets numbereds : List TextRange) :
    List DocsRequest :=
  (if bullets.isEmpty then []
   else [DocsRequest.createParagraphBullets
          (insertStart + (bullets.headD ⟨0, 0⟩).start)
          (insertStart + (bullets.getLastD ⟨0, 0⟩).endIdx)
          "BULLET_DISC_CIRCLE_SQUARE"])
  ++
  (if numbereds.isEmpty then []
   else [DocsRequest.createParagraphBullets
          (insertStart + (numbereds.headD ⟨0, 0⟩).start)
          (insertStart + (numbereds.getLastD ⟨0, 0⟩).endIdx)
          "NUMBERED_DECIMAL_ALPHA_ROMAN"])

/-- `insertHighlightToDoc` (part_014 lines 91-230).  Returns the outcome
(`Except` message on throw) together with the trace of issued calls.  The
append is an `endOfSegmentLocation` insert; on success the new end index is
re-fetched and the document-absolute start of the inserted text is recovered
as `endAfterInsert - fullText.length`. -/
def insertHighlightToDoc (env : DocsEnv) (data : HighlightData) :
    Except String Unit × List DocsCall :=
  let title := if data.pageTitle = "" then "Untitled" else data.pageTitle
  let text := data.selectedText
  let sourceLabel := "\nSource: "
  let timeStr := " " ++ data.timestamp
  let p := parseSelectionForInsert text sourceLabel title timeStr
  let fullText := p.textToInsert
  let insertCall := DocsCall.batchUpdate [DocsRequest.insertTextEndOfSegment fullText]
  match env.insertResult with
  | .unauthorized => (.error "SESSION_EXPIRED", [insertCall])
  | .httpError m => (.error m, [insertCall])
  | .ok _ =>
    match env.endIndexAfterInsert with
    | .unauthorized => (.error "SESSION_EXPIRED", [insertCall, .getEndIndex])
    | .httpError m => (.error m, [insertCall, .getEndIndex])
    | .ok endAfterInsert =>
      let insertStart : Int := (endAfterInsert : Int) - (fullText.length : Int)
      let extraRequests := listFormatRequests insertStart p.bulletRanges p.numberedRanges
      let textLen : Int := (fullText.length : Int)
      let sourceStart : Int :=
        (endAfterInsert : Int) - textLen + 1 + (p.quoteLen : Int) + (sourceLabel.length : Int)
      let sourceEnd : Int := sourceStart + (title.length : Int)
      let linkCall := DocsCall.batchUpdate
        [DocsRequest.updateTextStyleLink sourceStart sourceEnd
          (if data.pageUrl = "" then "#" else data.pageUrl)]
      if extraRequests.length > 0 then
        match env.formatResult with
        | .unauthorized =>
          (.error "SESSION_EXPIRED", [insertCall, .getEndIndex, .batchUpdate extraRequests])
        | .httpError m =>
          (.error m, [insertCall, .getEndIndex, .batchUpdate extraRequests])
        | .ok _ =>
          match env.linkResult with
          | .unauthorized =>
            (.error "SESSION_EXPIRED",
             [insertCall, .getEndIndex, .batchUpdate extraRequests, linkCall])
          | .httpError m =>
            (.error m, [insertCall, .getEndIndex, .batchUpdate extraRequests, linkCall])
          | .ok _ =>
            (.ok (), [insertCall, .getEndIndex, .batchUpdate extraRequests, linkCall])
      else
        match env.linkResult with
        | .unauthorized => (.error "SESSION_EXPIRED", [insertCall, .getEndIndex, linkCall])
        | .httpError m => (.error m, [insertCall, .getEndIndex, linkCall])
        | .ok _ => (.ok (), [insertCall, .getEndIndex, linkCall])

/-- Environment for `insertHighlightAtPosition`: no end-index re-fetch is
performed (the explicit index is the resolved start). -/
structure PositionEnv where
  insertResult : HttpResult Unit
  formatResult : HttpResult Unit
  linkResult : HttpResult Unit

/-- `insertHighlightAtPosition` (part_014 lines 310-419): identical to
`insertHighlightToDoc` except that the text is inserted at an explicit
`location.index` and `insertStart` is that index directly. -/
def insertHighlightAtPosition (env : PositionEnv) (data : HighlightData)
    (insertIndex : Int) : Except String Unit × List DocsCall :=
  let title := if data.pageTitle = "" then "Untitled" else data.pageTitle
  let text := data.selectedText
  let sourceLabel := "\nSource: "
  let timeStr := " " ++ data.timestamp
  let p := parseSelectionForInsert text sourceLabel title timeStr
  let fullText := p.textToInsert
  let insertCall := DocsCall.batchUpdate [DocsRequest.insertTextAt insertIndex fullText]
  match env.insertResult with
  | .unauthorized => (.error "SESSION_EXPIRED", [insertCall])
  | .httpError m => (.error m, [insertCall])
  | .ok _ =>
    let insertStart : Int := insertIndex
    let extraRequests := listFormatRequests insertStart p.bulletRanges p.numberedRanges
    let sourceStart : Int :=
      insertStart + 1 + (p.quoteLen : Int) + (sourceLabel.length : Int)
    let sourceEnd : Int := sourceStart + (title.length : Int)
    let linkCall := DocsCall.batchUpdate
      [DocsRequest.updateTextStyleLink sourceStart sourceEnd
        (if data.pageUrl = "" then "#" else data.pageUrl)]
    if extraRequests.length > 0 then
      match env.formatResult with
      | .unauthorized => (.error "SESSION_EXPIRED", [insertCall, .batchUpdate extraRequests])
      | .httpError m => (.error m, [insertCall, .batchUpdate extraRequests])
      | .ok _ =>
        match env.linkResult with
        | .unauthorized =>
          (.error "SESSION_EXPIRED", [insertCall, .batchUpdate extraRequests, linkCall])
        | .httpError m => (.error m, [insertCall, .batchUpdate extraRequests, linkCall])
        | .ok _ => (.ok (), [insertCall, .batchUpdate extraRequests, linkCall])
    else
      match env.linkResult with
      | .unauthorized => (.error "SESSION_EXPIRED", [insertCall, linkCall])
      | .httpError m => (.error m, [insertCall, linkCall])
      | .ok _ => (.ok (), [insertCall, linkCall])

/-! ## RegionCapture: `cropImage` crop rectangle (part_000 lines 155-173)

`Math.round(q)` in JavaScript is `⌊q + 1/2⌋`.  The geometry (CSS pixels,
device pixel ratio) is modelled over `ℚ`; the raster dimensions and the
resulting crop rectangle are integers. -/

/-- JavaScript `Math.round`: round half toward positive infinity. -/
def jsRound (q : ℚ) : Int := Int.floor (q + 1 / 2)

/-- The crop rectangle `{ sx, sy, sw, sh }` computed by `cropImage`
(part_000 lines 160-168) from the selection bounds, the effective scale
(`dpr || window.devicePixelRatio || 1`) and the raster dimensions
`img.width × img.height`. -/
def cropImage (x y width height scale : ℚ) (imgWidth imgHeight : Int) :
    Int × Int × Int × Int :=
  let sx := max 0 (jsRound (x * scale))
  let sy := max 0 (jsRound (y * scale))
  let sw := max 1 (jsRound (width * scale))
  let sh := max 1 (jsRound (height * scale))
  let sx := min sx (imgWidth - 1)
  let sy := min sy (imgHeight - 1)
  let sw := min sw (imgWidth - sx)
  let sh := min sh (imgHeight - sy)
  (sx, sy, sw, sh)

/-! ## AssetStager: `ensureResearchSnipsFolder` (googleDrive.js lines 41-73)

The persisted key-value store is `chrome.storage`; only the
`researchSnipsFolderId` key matters here.  The environment supplies the
outcome of the one possible folder-creation call; the function returns the
outcome, the new stored state, and how many creation calls it issued. -/

/-- Stored extension state read/written through `storage.js`. -/
structure DriveStorage where
  researchSnipsFolderId : Option String
deriving DecidableEq, Repr

/-- Response to the Drive `files` POST creating the folder: the decoded
`data.id` may be absent. -/
structure DriveEnv where
  createFolderResult : HttpResult (Option String)

/-- Result of `ensureResearchSnipsFolder`: outcome, updated storage, and the
number of folder-creation network calls issued. -/
structure EnsureFolderOutcome where
  result : Except String String
  storage : DriveStorage
  createCalls : Nat
deriving Repr

/-- `ensureResearchSnipsFolder` (googleDrive.js lines 41-73): return the
stored folder id when present; otherwise issue one folder-creation call,
mapping 401 to `SESSION_EXPIRED`, any other failure to its message, a
response without id to `'No folder ID returned from Drive'`, and persisting
the returned id before returning it. -/
def ensureResearchSnipsFolder (st : DriveStorage) (env : DriveEnv) :
    EnsureFolderOutcome :=
  match st.researchSnipsFolderId with
  | some folderId => ⟨.ok folderId, st, 0⟩
  | none =>
    match env.createFolderResult with
    | .unauthorized => ⟨.error "SESSION_EXPIRED", st, 1⟩
    | .httpError m => ⟨.error m, st, 1⟩
    | .ok none => ⟨.error "No folder ID returned from Drive", st, 1⟩
    | .ok (some folderId) =>
      ⟨.ok folderId, { researchSnipsFolderId := some folderId }, 1⟩

/-! ## CredentialedExecutor: `withTokenRetry` (background/auth.js lines 149-165)

This is the current revision of the executor: on an auth error it clears the
whole auth state once, notifies, and re-throws `'Session expired'` — it
performs no re-acquisition and no second run of the operation.  (The retrying
variant in the historical copy part_008 lines 72-104 is superseded; spec §9
marks the no-silent-reacquisition policy as authoritative.)  The wrapped
operation is a function from the token to an outcome; the executor's result
records how many times it ran the operation and how many times it
invalidated the credential state. -/

/-- Substring test (JavaScript `String.prototype.includes`). -/
def strIncludes (s pat : String) : Bool :=
  (List.range (s.toList.length + 1)).any
    (fun i => pat.toList.isPrefixOf (s.toList.drop i))

/-- `isAuthError` (background/auth.js lines 24-34). -/
def isAuthError (msg : String) : Bool :=
  msg = "SESSION_EXPIRED" ||
  strIncludes msg "401" ||
  strIncludes msg "UNAUTHENTICATED" ||
  strIncludes msg "invalid authentication" ||
  strIncludes msg "Invalid Credentials" ||
  strIncludes msg "Session expired"

/-- Auth-related persisted state: the stored access token (from the explicit
Connect flow), whether Chrome's cached auth tokens have been cleared, and
the selected document. -/
structure AuthState where
  storedAccessToken : Option String
  cachedTokensCleared : Bool
  selectedDocument : Option String
deriving DecidableEq, Repr

/-- `getValidToken` (background/auth.js lines 41-43): only the stored token. -/
def getValidToken (st : AuthState) : Option String :=
  st.storedAccessToken

/-- `clearAuthState` (background/auth.js lines 171-180). -/
def clearAuthState (_st : AuthState) : AuthState :=
  { storedAccessToken := none
    cachedTokensCleared := true
    selectedDocument := none }

/-- Outcome of one wrapped operation run: resolves with a value or rejects
with an error message. -/
inductive OpOutcome (α : Type) where
  | ok (v : α)
  | err (msg : String)

/-- Result of `withTokenRetry`: the overall outcome, the auth state after
the attempt, the notifications shown, the number of times the wrapped
operation was executed, and the number of credential invalidations
(`clearAuthState` calls). -/
structure ExecOutcome (α : Type) where
  result : Except String α
  state : AuthState
  notifications : List (String × String)
  executions : Nat
  invalidations : Nat

/-- `withTokenRetry` (background/auth.js lines 149-165): fetch the stored
token (throw `'Sign in required'` when absent), run the operation once; on a
non-auth failure re-throw it unchanged; on an auth failure clear the auth
state once, notify, and throw `'Session expired'`.  No retry occurs. -/
def withTokenRetry {α : Type} (st : AuthState) (fn : String → OpOutcome α) :
    ExecOutcome α :=
  match getValidToken st with
  | none => ⟨.error "Sign in required", st, [], 0, 0⟩
  | some token =>
    match fn token with
    | .ok v => ⟨.ok v, st, [], 1, 0⟩
    | .err e =>
      if isAuthError e then
        ⟨.error "Session expired", clearAuthState st,
         [("Session expired", "Please open the extension and connect Google Docs again.")],
         1, 1⟩
      else
        ⟨.error e, st, [], 1, 0⟩

/-! ## Sample documents used by concrete scenarios -/

/-- A heading element with the given text and end offset. -/
def headingEl (name : String) (e : Nat) : DocElement :=
  ⟨none, some e, some ⟨some ⟨some "HEADING_1"⟩, some [⟨some ⟨some name⟩⟩]⟩⟩

/-- A body (normal style) element with the given end offset. -/
def bodyEl (e : Nat) : DocElement :=
  ⟨none, some e, some ⟨some ⟨some "NORMAL_TEXT"⟩, some [⟨some ⟨some "body"⟩⟩]⟩⟩

/-- The document of C5: heading `Intro`, body ending at 50, heading
`Methods`, body ending at 120. -/
def introMethodsDoc : List DocElement :=
  [headingEl "Intro" 7, bodyEl 50, headingEl "Methods" 58, bodyEl 120]

/-- A document whose element end offsets are not monotonically
non-decreasing (100, 101, 50, 51, 5, 6). -/
def unsortedEndsDoc : List DocElement :=
  [bodyEl 100, headingEl "A" 101, bodyEl 50, headingEl "B" 51,
   bodyEl 5, headingEl "C" 6]

/-! ## Theorems -/

/-- C3 (counterexample): on selection `"- first\n- second"`, title `"Doc"`,
timestamp `"2024-01-01T00:00:00Z"`, the two recorded bullet ranges cover the
substrings `"first\n"` and `"second\n"` — each includes the trailing
newline — and therefore do not cover exactly `"first"` and `"second"` as
the claim states. -/
theorem parseSelection_scenario_bullet_ranges_not_exact :
    (let r := parseSelectionForInsert "- first\n- second" "\nSource: "
        "Doc" " 2024-01-01T00:00:00Z"
     r.bulletRanges.map (fun rg => sliceChars r.textToInsert rg.start rg.endIdx)
       ≠ ["first", "second"]) := by
  decide

/-- C3 (amended): on selection `"- first\n- second"`, title `"Doc"`,
timestamp `"2024-01-01T00:00:00Z"`, the body text is
`"\nfirst\nsecond\nSource: Doc 2024-01-01T00:00:00Z"`; the two bullet
ranges are `[1,7)` and `[7,14)` covering `"first\n"` and `"second\n"`
(each including its trailing newline, as list-paragraph ranges); and the
citation-title range `[1 + quoteLen + 9, … + 3)` covers exactly `"Doc"`. -/
theorem parseSelection_scenario_amended :
    (let r := parseSelectionForInsert "- first\n- second" "\nSource: "
        "Doc" " 2024-01-01T00:00:00Z"
     r.textToInsert = "\nfirst\nsecond\nSource: Doc 2024-01-01T00:00:00Z"
     ∧ r.bulletRanges = [⟨1, 7⟩, ⟨7, 14⟩]
     ∧ r.bulletRanges.map (fun rg => sliceChars r.textToInsert rg.start rg.endIdx)
         = ["first\n", "second\n"]
     ∧ r.numberedRanges = []
     ∧ sliceChars r.textToInsert (1 + r.quoteLen + 9) (1 + r.quoteLen + 9 + 3)
         = "Doc") := by
  decide

/-- C5: on a document with heading `Intro`, body ending at offset 50,
heading `Methods`, body ending at offset 120, the outline is exactly
beginning at 1, end of Intro at 49, end of Methods at 119, and end at 120 —
each section index being `max(1, lastBodyEnd - 1)`. -/
theorem getDocumentSections_intro_methods :
    getDocumentSections introMethodsDoc =
      [⟨"At the beginning", 1⟩, ⟨"End of section: Intro", 49⟩,
       ⟨"End of section: Methods", 119⟩, ⟨"At the end", 120⟩] := by
  decide

/-- C4 (counterexample): for a document structure whose element end offsets
are not non-decreasing (ends 100, 101, 50, 51, 5, 6), the outline indices
are `[1, 49, 4, 4, 101]`, which is not monotonically non-decreasing. -/
theorem getDocumentSections_not_monotone_on_unsorted_ends :
    (getDocumentSections unsortedEndsDoc).map DocSection.index = [1, 49, 4, 4, 101]
    ∧ ¬ List.Chain' (fun a b => a ≤ b)
        ((getDocumentSections unsortedEndsDoc).map DocSection.index) := by
  have h : (getDocumentSections unsortedEndsDoc).map DocSection.index
      = [1, 49, 4, 4, 101] := by decide
  refine ⟨h, ?_⟩
  rw [h]
  simp [List.chain'_cons]

/-- C8: for any capture region with `width, height ≥ 1` CSS pixels, any
device pixel ratio, and any raster of dimensions `W × H` with `W, H ≥ 1`,
the crop rectangle computed by `cropImage` has both dimensions at least 1
and lies entirely within the raster. -/
theorem cropImage_within_raster (x y width height scale : ℚ) (W H : Int)
    (_hw : 1 ≤ width) (_hh : 1 ≤ height) (hW : 1 ≤ W) (hH : 1 ≤ H) :
    0 ≤ (cropImage x y width height scale W H).1
    ∧ 0 ≤ (cropImage x y width height scale W H).2.1
    ∧ 1 ≤ (cropImage x y width height scale W H).2.2.1
    ∧ 1 ≤ (cropImage x y width height scale W H).2.2.2
    ∧ (cropImage x y width height scale W H).1
        + (cropImage x y width height scale W H).2.2.1 ≤ W
    ∧ (cropImage x y width height scale W H).2.1
        + (cropImage x y width height scale W H).2.2.2 ≤ H := by
  simp only [cropImage]
  generalize jsRound (x * scale) = rx
  generalize jsRound (y * scale) = ry
  generalize jsRound (width * scale) = rw
  generalize jsRound (height * scale) = rh
  simp only [max_def, min_def]
  split_ifs <;> omega

/-- C8 (witness): the crop bounds hold for a concrete region and raster. -/
theorem cropImage_within_raster_witness :
    0 ≤ (cropImage 10 20 30 40 2 1000 800).1
    ∧ 0 ≤ (cropImage 10 20 30 40 2 1000 800).2.1
    ∧ 1 ≤ (cropImage 10 20 30 40 2 1000 800).2.2.1
    ∧ 1 ≤ (cropImage 10 20 30 40 2 1000 800).2.2.2
    ∧ (cropImage 10 20 30 40 2 1000 800).1 + (cropImage 10 20 30 40 2 1000 800).2.2.1 ≤ 1000
    ∧ (cropImage 10 20 30 40 2 1000 800).2.1 + (cropImage 10 20 30 40 2 1000 800).2.2.2 ≤ 800 :=
  cropImage_within_raster 10 20 30 40 2 1000 800
    (by norm_num) (by norm_num) (by norm_num) (by norm_num)

/-- C9: the asset-staging container lookup is memoized.  With no stored
container id and a creation response carrying an id, exactly one creation
call is issued and the id is persisted; in any state that already stores a
container id, the stored id is returned, no creation call is issued, and the
stored state is unchanged — in particular on the call following the miss. -/
theorem ensureResearchSnipsFolder_memoized (st : DriveStorage)
    (env env' : DriveEnv) (fid : String)
    (hmiss : st.researchSnipsFolderId = none)
    (hok : env.createFolderResult = .ok (some fid)) :
    (∀ st' id', st'.researchSnipsFolderId = some id' →
      ensureResearchSnipsFolder st' env' = ⟨.ok id', st', 0⟩)
    ∧ (ensureResearchSnipsFolder st env).result = .ok fid
    ∧ (ensureResearchSnipsFolder st env).createCalls = 1
    ∧ (ensureResearchSnipsFolder st env).storage.researchSnipsFolderId = some fid
    ∧ ensureResearchSnipsFolder (ensureResearchSnipsFolder st env).storage env'
        = ⟨.ok fid, (ensureResearchSnipsFolder st env).storage, 0⟩ := by
  refine ⟨?_, ?_⟩
  · intro st' id' h
    cases st' with
    | mk f => cases h; rfl
  · simp [ensureResearchSnipsFolder, hmiss, hok]

/-- C9 (witness): concrete run — a miss followed by a hit. -/
theorem ensureResearchSnipsFolder_memoized_witness :
    (∀ st' id', st'.researchSnipsFolderId = some id' →
      ensureResearchSnipsFolder st' ⟨.httpError "down"⟩ = ⟨.ok id', st', 0⟩)
    ∧ (ensureResearchSnipsFolder ⟨none⟩ ⟨.ok (some "folder-1")⟩).result = .ok "folder-1"
    ∧ (ensureResearchSnipsFolder ⟨none⟩ ⟨.ok (some "folder-1")⟩).createCalls = 1
    ∧ (ensureResearchSnipsFolder ⟨none⟩ ⟨.ok (some "folder-1")⟩).storage.researchSnipsFolderId
        = some "folder-1"
    ∧ ensureResearchSnipsFolder (ensureResearchSnipsFolder ⟨none⟩ ⟨.ok (some "folder-1")⟩).storage
        ⟨.httpError "down"⟩
        = ⟨.ok "folder-1",
           (ensureResearchSnipsFolder ⟨none⟩ ⟨.ok (some "folder-1")⟩).storage, 0⟩ :=
  ensureResearchSnipsFolder_memoized ⟨none⟩ ⟨.ok (some "folder-1")⟩ ⟨.httpError "down"⟩
    "folder-1" rfl rfl

/-- C1: the credentialed executor runs the wrapped operation at most once;
when the stored credential exists and the operation fails with an
auth-expiry error, the credential state is invalidated exactly once, the
operation is not re-run (exactly one execution, hence zero automatic
retries and no silent re-acquisition), and the attempt ends in
`Session expired`. -/
theorem withTokenRetry_single_attempt {α : Type} (st : AuthState)
    (fn : String → OpOutcome α) :
    (withTokenRetry st fn).executions ≤ 1
    ∧ (∀ token e, getValidToken st = some token → fn token = .err e →
        isAuthError e = true →
        (withTokenRetry st fn).result = .error "Session expired"
        ∧ (withTokenRetry st fn).invalidations = 1
        ∧ (withTokenRetry st fn).executions = 1
        ∧ (withTokenRetry st fn).state = clearAuthState st) := by
  constructor
  · unfold withTokenRetry
    split
    · simp
    · split
      · simp
      · split <;> simp
  · intro token e htok hfn he
    simp [withTokenRetry, htok, hfn, he]

/-- C1 (witness): a concrete signed-in state whose wrapped `insertAt`
operation rejects with a 401-style auth error. -/
theorem withTokenRetry_single_attempt_witness :
    (withTokenRetry ⟨some "tok", false, some "doc-1"⟩
        (fun _ => OpOutcome.err (α := Unit) "SESSION_EXPIRED")).executions ≤ 1
    ∧ ((withTokenRetry ⟨some "tok", false, some "doc-1"⟩
          (fun _ => OpOutcome.err (α := Unit) "SESSION_EXPIRED")).result
           = .error "Session expired"
       ∧ (withTokenRetry ⟨some "tok", false, some "doc-1"⟩
            (fun _ => OpOutcome.err (α := Unit) "SESSION_EXPIRED")).invalidations = 1
       ∧ (withTokenRetry ⟨some "tok", false, some "doc-1"⟩
            (fun _ => OpOutcome.err (α := Unit) "SESSION_EXPIRED")).executions = 1
       ∧ (withTokenRetry ⟨some "tok", false, some "doc-1"⟩
            (fun _ => OpOutcome.err (α := Unit) "SESSION_EXPIRED")).state
           = clearAuthState ⟨some "tok", false, some "doc-1"⟩) :=
  ⟨(withTokenRetry_single_attempt ⟨some "tok", false, some "doc-1"⟩
      (fun _ => OpOutcome.err "SESSION_EXPIRED")).1,
   (withTokenRetry_single_attempt ⟨some "tok", false, some "doc-1"⟩
      (fun _ => OpOutcome.err "SESSION_EXPIRED")).2
     "tok" "SESSION_EXPIRED" rfl rfl (by decide)⟩

/-- C2: on a successful implicit (append) insertion, the document-absolute
start offset of the inserted text is recovered as the re-fetched end index
minus the inserted text's length, and the final call applies the hyperlink
style to the range starting at that offset plus 1 (leading newline) plus
the quote length plus the citation label length (9, for `"\nSource: "`),
spanning exactly the title's length. -/
theorem insertHighlightToDoc_link_range (env : DocsEnv) (data : HighlightData)
    (E : Nat)
    (h1 : env.insertResult = .ok ())
    (h2 : env.endIndexAfterInsert = .ok E)
    (h3 : env.formatResult = .ok ())
    (h4 : env.linkResult = .ok ()) :
    (let title := if data.pageTitle = "" then "Untitled" else data.pageTitle
     let p := parseSelectionForInsert data.selectedText "\nSource: " title
       (" " ++ data.timestamp)
     let insertStart : Int := (E : Int) - (p.textToInsert.length : Int)
     (insertHighlightToDoc env data).1 = .ok ()
     ∧ (insertHighlightToDoc env data).2.getLast? =
         some (.batchUpdate [.updateTextStyleLink
           (insertStart + 1 + (p.quoteLen : Int) + 9)
           (insertStart + 1 + (p.quoteLen : Int) + 9 + (title.length : Int))
           (if data.pageUrl = "" then "#" else data.pageUrl)])) := by
  have h9 : ((String.length "\nSource: " : Nat) : Int) = 9 := rfl
  simp only [insertHighlightToDoc, h1, h2, h3, h4]
  split <;> split <;> simp [h9]

/-- C2 (witness): concrete successful append with re-fetched end index 100. -/
theorem insertHighlightToDoc_link_range_witness :
    (let env : DocsEnv := ⟨.ok (), .ok 100, .ok (), .ok ()⟩
     let data : HighlightData :=
       ⟨"- first\n- second", "https://x", "Doc", "2024-01-01T00:00:00Z"⟩
     let title := if data.pageTitle = "" then "Untitled" else data.pageTitle
     let p := parseSelectionForInsert data.selectedText "\nSource: " title
       (" " ++ data.timestamp)
     let insertStart : Int := (100 : Int) - (p.textToInsert.length : Int)
     (insertHighlightToDoc env data).1 = .ok ()
     ∧ (insertHighlightToDoc env data).2.getLast? =
         some (.batchUpdate [.updateTextStyleLink
           (insertStart + 1 + (p.quoteLen : Int) + 9)
           (insertStart + 1 + (p.quoteLen : Int) + 9 + (title.length : Int))
           (if data.pageUrl = "" then "#" else data.pageUrl)])) :=
  insertHighlightToDoc_link_range ⟨.ok (), .ok 100, .ok (), .ok ()⟩
    ⟨"- first\n- second", "https://x", "Doc", "2024-01-01T00:00:00Z"⟩ 100
    rfl rfl rfl rfl

/-- A string other than `""` has positive length. -/
theorem one_le_length_of_ne_empty (s : String) (h : s ≠ "") : 1 ≤ s.length := by
  cases s with
  | mk data =>
    cases data with
    | nil => exact absurd rfl h
    | cons c cs => simp [String.length]

/-- Every part pushed by one line-loop iteration is nonempty. -/
theorem stepLine_parts_nonempty (st : ParseState) (line : String)
    (h : ∀ p ∈ st.parts, 1 ≤ p.length) :
    ∀ p ∈ (stepLine st line).parts, 1 ≤ p.length := by
  intro p hp
  unfold stepLine at hp
  split at hp
  case _ c0 _ =>
    simp only [List.mem_append, List.mem_singleton] at hp
    rcases hp with hp | rfl
    · exact h p hp
    · by_cases hc : c0 = ""
      · simp only [hc, if_pos]
        decide
      · simp only [if_neg hc]
        exact one_le_length_of_ne_empty c0 hc
  case _ _ =>
    split at hp
    case _ c0 _ =>
      simp only [List.mem_append, List.mem_singleton] at hp
      rcases hp with hp | rfl
      · exact h p hp
      · by_cases hc : c0 = ""
        · simp only [hc, if_pos]
          decide
        · simp only [if_neg hc]
          exact one_le_length_of_ne_empty c0 hc
    case _ _ =>
      simp only [List.mem_append, List.mem_singleton] at hp
      rcases hp with hp | rfl
      · exact h p hp
      · by_cases hc : line = ""
        · simp only [hc, if_pos]
          decide
        · simp only [if_neg hc]
          exact one_le_length_of_ne_empty line hc

/-- Every part accumulated by the whole line loop is nonempty. -/
theorem foldl_stepLine_parts_nonempty (lines : List String) :
    ∀ st : ParseState, (∀ p ∈ st.parts, 1 ≤ p.length) →
      ∀ p ∈ (lines.foldl stepLine st).parts, 1 ≤ p.length := by
  induction lines with
  | nil => intro st h; simpa using h
  | cons l ls ih =>
    intro st h
    rw [List.foldl_cons]
    exact ih (stepLine st l) (stepLine_parts_nonempty st l h)

/-- C7 (amended): the formatter's body is the newline join of the per-line
parts, and every part is nonempty — a fully empty input line is replaced by
a single space, so no zero-length quote line is ever produced.
(Whitespace-only lines are kept verbatim, which are already nonempty; no
whitespace normalization to a single space takes place.) -/
theorem parseSelection_no_empty_lines
    (selectedText sourceLabel title timeStr : String) :
    (parseSelectionForInsert selectedText sourceLabel title timeStr).textToInsert
      = "\n" ++ String.intercalate "\n"
          ((jsSplitNewline selectedText).foldl stepLine ⟨1, [], [], []⟩).parts
        ++ sourceLabel ++ title ++ timeStr
    ∧ ∀ p ∈ ((jsSplitNewline selectedText).foldl stepLine ⟨1, [], [], []⟩).parts,
        1 ≤ p.length := by
  refine ⟨rfl, ?_⟩
  exact foldl_stepLine_parts_nonempty _ _ (by simp)

/-- C7 (witness): the body shape holds for a concrete selection with an
empty middle line, whose part `" "` (the replaced empty line) is nonempty. -/
theorem parseSelection_no_empty_lines_witness :
    (parseSelectionForInsert "- first\n\nlast" "\nSource: " "T" " ts").textToInsert
      = "\n" ++ String.intercalate "\n"
          ((jsSplitNewline "- first\n\nlast").foldl stepLine ⟨1, [], [], []⟩).parts
        ++ "\nSource: " ++ "T" ++ " ts"
    ∧ 1 ≤ String.length " " :=
  ⟨(parseSelection_no_empty_lines "- first\n\nlast" "\nSource: " "T" " ts").1,
   (parseSelection_no_empty_lines "- first\n\nlast" "\nSource: " "T" " ts").2
     " " (by decide)⟩

/-- C7 (counterexample): input consisting only of whitespace is not
normalized to a single space — the line `"   "` is kept verbatim. -/
theorem parseSelection_whitespace_only_not_normalized :
    (parseSelectionForInsert "   " "\nSource: " "T" " ts").textToInsert
      = "\n   \nSource: T ts"
    ∧ (parseSelectionForInsert "   " "\nSource: " "T" " ts").textToInsert
      ≠ "\n \nSource: T ts" := by
  decide

/-- Invariant of the line loop: the offset is at least 1, every recorded
range sits inside `[1, offset)` with positive width, within each class the
ranges are ordered with no overlap, and ranges of different classes never
overlap. -/
def RangesOrdered (st : ParseState) : Prop :=
  1 ≤ st.offset
  ∧ (∀ r ∈ st.bulletRanges ++ st.numberedRanges,
      1 ≤ r.start ∧ r.start < r.endIdx ∧ r.endIdx ≤ st.offset)
  ∧ List.Pairwise (fun a b => a.endIdx ≤ b.start) st.bulletRanges
  ∧ List.Pairwise (fun a b => a.endIdx ≤ b.start) st.numberedRanges
  ∧ (∀ a ∈ st.bulletRanges, ∀ b ∈ st.numberedRanges,
      a.endIdx ≤ b.start ∨ b.endIdx ≤ a.start)

/-- One line-loop iteration preserves `RangesOrdered`: a new range starts at
the current offset, beyond the end of every range recorded before it. -/
theorem stepLine_ranges_ordered (st : ParseState) (line : String)
    (h : RangesOrdered st) : RangesOrdered (stepLine st line) := by
  obtain ⟨h1, h2, h3, h4, h5⟩ := h
  rcases hmb : matchBullet line with _ | c0
  · rcases hmn : matchNumbered line with _ | c0
    · have hst : stepLine st line =
          { offset := st.offset + (line.length + 1)
            parts := st.parts ++ [if line = "" then " " else line]
            bulletRanges := st.bulletRanges
            numberedRanges := st.numberedRanges } := by
        simp [stepLine, hmb, hmn]
      rw [hst]
      unfold RangesOrdered
      dsimp only
      refine ⟨by omega, ?_, h3, h4, h5⟩
      intro r hr
      have := h2 r hr
      exact ⟨this.1, this.2.1, by omega⟩
    · have hst : stepLine st line =
          { offset := st.offset + ((if c0 = "" then " " else c0).length + 1)
            parts := st.parts ++ [if c0 = "" then " " else c0]
            bulletRanges := st.bulletRanges
            numberedRanges := st.numberedRanges ++
              [⟨st.offset, st.offset + (if c0 = "" then " " else c0).length + 1⟩] } := by
        simp [stepLine, hmb, hmn]
      rw [hst]
      unfold RangesOrdered
      dsimp only
      refine ⟨by omega, ?_, h3, ?_, ?_⟩
      · intro r hr
        simp only [List.mem_append, List.mem_singleton] at hr
        rcases hr with hr | (hr | rfl)
        · have := h2 r (List.mem_append.mpr (Or.inl hr))
          exact ⟨this.1, this.2.1, by omega⟩
        · have := h2 r (List.mem_append.mpr (Or.inr hr))
          exact ⟨this.1, this.2.1, by omega⟩
        · exact ⟨h1, by dsimp only; omega, by dsimp only; omega⟩
      · rw [List.pairwise_append]
        refine ⟨h4, by simp, ?_⟩
        intro a ha b hb
        simp only [List.mem_singleton] at hb
        subst hb
        exact (h2 a (List.mem_append.mpr (Or.inr ha))).2.2
      · intro a ha b hb
        simp only [List.mem_append, List.mem_singleton] at hb
        rcases hb with hb | rfl
        · exact h5 a ha b hb
        · exact Or.inl (h2 a (List.mem_append.mpr (Or.inl ha))).2.2
  · have hst : stepLine st line =
        { offset := st.offset + ((if c0 = "" then " " else c0).length + 1)
          parts := st.parts ++ [if c0 = "" then " " else c0]
          bulletRanges := st.bulletRanges ++
            [⟨st.offset, st.offset + (if c0 = "" then " " else c0).length + 1⟩]
          numberedRanges := st.numberedRanges } := by
      simp [stepLine, hmb]
    rw [hst]
    unfold RangesOrdered
    dsimp only
    refine ⟨by omega, ?_, ?_, h4, ?_⟩
    · intro r hr
      simp only [List.mem_append, List.mem_singleton] at hr
      rcases hr with (hr | rfl) | hr
      · have := h2 r (List.mem_append.mpr (Or.inl hr))
        exact ⟨this.1, this.2.1, by omega⟩
      · exact ⟨h1, by dsimp only; omega, by dsimp only; omega⟩
      · have := h2 r (List.mem_append.mpr (Or.inr hr))
        exact ⟨this.1, this.2.1, by omega⟩
    · rw [List.pairwise_append]
      refine ⟨h3, by simp, ?_⟩
      intro a ha b hb
      simp only [List.mem_singleton] at hb
      subst hb
      exact (h2 a (List.mem_append.mpr (Or.inl ha))).2.2
    · intro a ha b hb
      simp only [List.mem_append, List.mem_singleton] at ha
      rcases ha with ha | rfl
      · exact h5 a ha b hb
      · exact Or.inr (h2 b (List.mem_append.mpr (Or.inr hb))).2.2

/-- The whole line loop preserves `RangesOrdered`. -/
theorem foldl_stepLine_ranges_ordered (lines : List String) :
    ∀ st : ParseState, RangesOrdered st →
      RangesOrdered (lines.foldl stepLine st) := by
  induction lines with
  | nil => intro st h; simpa using h
  | cons l ls ih =>
    intro st h
    rw [List.foldl_cons]
    exact ih (stepLine st l) (stepLine_ranges_ordered st l h)

/-- C6: for every input, the bullet and numbered ranges are pairwise
non-overlapping — within each class consecutive ranges satisfy
`end ≤ start` (so each list is also sorted by strictly ascending start
offset) and any bullet range is disjoint from any numbered range (each line
is classified as at most one of bullet, numbered, plain). -/
theorem parseSelection_ranges_disjoint_sorted
    (selectedText sourceLabel title timeStr : String) :
    (let r := parseSelectionForInsert selectedText sourceLabel title timeStr
     List.Pairwise (fun a b => a.endIdx ≤ b.start) r.bulletRanges
     ∧ List.Pairwise (fun a b => a.endIdx ≤ b.start) r.numberedRanges
     ∧ (∀ a ∈ r.bulletRanges, ∀ b ∈ r.numberedRanges,
         a.endIdx ≤ b.start ∨ b.endIdx ≤ a.start)
     ∧ List.Pairwise (fun a b => a.start < b.start) r.bulletRanges
     ∧ List.Pairwise (fun a b => a.start < b.start) r.numberedRanges) := by
  have hInv : RangesOrdered
      ((jsSplitNewline selectedText).foldl stepLine ⟨1, [], [], []⟩) := by
    apply foldl_stepLine_ranges_ordered
    exact ⟨by decide, by simp, by simp, by simp, by simp⟩
  obtain ⟨h1, h2, h3, h4, h5⟩ := hInv
  refine ⟨h3, h4, h5, ?_, ?_⟩
  · refine List.Pairwise.imp_of_mem ?_ h3
    intro a b ha hb hR
    have := h2 a (List.mem_append.mpr (Or.inl ha))
    omega
  · refine List.Pairwise.imp_of_mem ?_ h4
    intro a b ha hb hR
    have := h2 a (List.mem_append.mpr (Or.inr ha))
    omega

/-- C6 (witness): for the selection `"- a\n1. b"` the recorded ranges are
the bullet range `[1,3)` and the numbered range `[3,5)`; the sortedness
facts and their disjointness follow from the theorem. -/
theorem parseSelection_ranges_disjoint_sorted_witness :
    List.Pairwise (fun a b => a.endIdx ≤ b.start)
      (parseSelectionForInsert "- a\n1. b" "\nSource: " "T" " ts").bulletRanges
    ∧ List.Pairwise (fun a b => a.start < b.start)
      (parseSelectionForInsert "- a\n1. b" "\nSource: " "T" " ts").numberedRanges
    ∧ ((⟨1, 3⟩ : TextRange).endIdx ≤ (⟨3, 5⟩ : TextRange).start
       ∨ (⟨3, 5⟩ : TextRange).endIdx ≤ (⟨1, 3⟩ : TextRange).start) :=
  ⟨(parseSelection_ranges_disjoint_sorted "- a\n1. b" "\nSource: " "T" " ts").1,
   (parseSelection_ranges_disjoint_sorted "- a\n1. b" "\nSource: " "T" " ts").2.2.2.2,
   (parseSelection_ranges_disjoint_sorted "- a\n1. b" "\nSource: " "T" " ts").2.2.1
     ⟨1, 3⟩ (by decide) ⟨3, 5⟩ (by decide)⟩

/-- Requests carried by one Docs call. -/
def callRequests : DocsCall → List DocsRequest
  | .batchUpdate rs => rs
  | .getEndIndex => []

/-- Is the request a bullet-preset list-formatting request? -/
def isBulletPresetReq : DocsRequest → Bool
  | .createParagraphBullets _ _ p => p == "BULLET_DISC_CIRCLE_SQUARE"
  | _ => false

/-- Is the request a numbered-preset list-formatting request? -/
def isNumberedPresetReq : DocsRequest → Bool
  | .createParagraphBullets _ _ p => p == "NUMBERED_DECIMAL_ALPHA_ROMAN"
  | _ => false

/-- C10: when at least one bullet (resp. numbered) range was recorded, the
list-formatting step issues a single formatting request per class whose
range is the one contiguous interval from the first recorded range's start
to the last recorded range's end, offset by the resolved insertion start
(so lines of other classes lying between them fall inside the formatted
interval); the whole formatting step is one `batchUpdate` call; and when no
ranges of either class were recorded, no formatting call is issued at all.
Stated for both `insertHighlightAtPosition` (explicit index) and
`insertHighlightToDoc` (append, resolved start `E - length`). -/
theorem listFormatting_single_contiguous_call
    (envP : PositionEnv) (envD : DocsEnv) (data : HighlightData)
    (idx : Int) (E : Nat)
    (hp1 : envP.insertResult = .ok ()) (hp2 : envP.formatResult = .ok ())
    (hp3 : envP.linkResult = .ok ())
    (hd1 : envD.insertResult = .ok ()) (hd2 : envD.endIndexAfterInsert = .ok E)
    (hd3 : envD.formatResult = .ok ()) (hd4 : envD.linkResult = .ok ()) :
    (let title := if data.pageTitle = "" then "Untitled" else data.pageTitle
     let url := if data.pageUrl = "" then "#" else data.pageUrl
     let p := parseSelectionForInsert data.selectedText "\nSource: " title
       (" " ++ data.timestamp)
     let callsP := (insertHighlightAtPosition envP data idx).2
     let callsD := (insertHighlightToDoc envD data).2
     let startD : Int := (E : Int) - (p.textToInsert.length : Int)
     (p.bulletRanges = [] → p.numberedRanges = [] →
        callsP = [.batchUpdate [.insertTextAt idx p.textToInsert],
                  .batchUpdate [.updateTextStyleLink
                    (idx + 1 + (p.quoteLen : Int) + 9)
                    (idx + 1 + (p.quoteLen : Int) + 9 + (title.length : Int)) url]]
        ∧ callsD = [.batchUpdate [.insertTextEndOfSegment p.textToInsert],
                    .getEndIndex,
                    .batchUpdate [.updateTextStyleLink
                      (startD + 1 + (p.quoteLen : Int) + 9)
                      (startD + 1 + (p.quoteLen : Int) + 9 + (title.length : Int)) url]])
     ∧ ((p.bulletRanges ≠ [] ∨ p.numberedRanges ≠ []) →
        callsP = [.batchUpdate [.insertTextAt idx p.textToInsert],
                  .batchUpdate (listFormatRequests idx p.bulletRanges p.numberedRanges),
                  .batchUpdate [.updateTextStyleLink
                    (idx + 1 + (p.quoteLen : Int) + 9)
                    (idx + 1 + (p.quoteLen : Int) + 9 + (title.length : Int)) url]]
        ∧ callsD = [.batchUpdate [.insertTextEndOfSegment p.textToInsert],
                    .getEndIndex,
                    .batchUpdate (listFormatRequests startD p.bulletRanges p.numberedRanges),
                    .batchUpdate [.updateTextStyleLink
                      (startD + 1 + (p.quoteLen : Int) + 9)
                      (startD + 1 + (p.quoteLen : Int) + 9 + (title.length : Int)) url]])
     ∧ (∀ s : Int, ∀ b0 bs, p.bulletRanges = b0 :: bs →
          (listFormatRequests s p.bulletRanges p.numberedRanges).filter isBulletPresetReq
            = [.createParagraphBullets (s + (b0.start : Int))
                (s + (((b0 :: bs).getLastD ⟨0, 0⟩).endIdx : Int))
                "BULLET_DISC_CIRCLE_SQUARE"])
     ∧ (∀ s : Int, ∀ n0 ns, p.numberedRanges = n0 :: ns →
          (listFormatRequests s p.bulletRanges p.numberedRanges).filter isNumberedPresetReq
            = [.createParagraphBullets (s + (n0.start : Int))
                (s + (((n0 :: ns).getLastD ⟨0, 0⟩).endIdx : Int))
                "NUMBERED_DECIMAL_ALPHA_ROMAN"])) := by
  have h9 : ((String.length "\nSource: " : Nat) : Int) = 9 := rfl
  refine ⟨?_, ?_, ?_, ?_⟩
  · intro hb hn
    constructor
    · simp only [insertHighlightAtPosition, hp1, hp2, hp3, listFormatRequests, hb, hn, h9]
      simp
    · simp only [insertHighlightToDoc, hd1, hd2, hd3, hd4, listFormatRequests, hb, hn, h9]
      simp
  · intro hne
    have hlen : ∀ s : Int, 0 < (listFormatRequests s
        (parseSelectionForInsert data.selectedText "\nSource: "
          (if data.pageTitle = "" then "Untitled" else data.pageTitle)
          (" " ++ data.timestamp)).bulletRanges
        (parseSelectionForInsert data.selectedText "\nSource: "
          (if data.pageTitle = "" then "Untitled" else data.pageTitle)
          (" " ++ data.timestamp)).numberedRanges).length := by
      intro s
      rcases hne with hne | hne
      · rcases hx : (parseSelectionForInsert data.selectedText "\nSource: "
            (if data.pageTitle = "" then "Untitled" else data.pageTitle)
            (" " ++ data.timestamp)).bulletRanges with _ | ⟨b0, bs⟩
        · exact absurd hx hne
        · simp [listFormatRequests, hx]
      · rcases hx : (parseSelectionForInsert data.selectedText "\nSource: "
            (if data.pageTitle = "" then "Untitled" else data.pageTitle)
            (" " ++ data.timestamp)).numberedRanges with _ | ⟨n0, ns⟩
        · exact absurd hx hne
        · simp [listFormatRequests, hx]
    constructor
    · simp only [insertHighlightAtPosition, hp1, hp2, hp3]
      rw [if_pos (hlen idx)]
      simp [h9]
    · simp only [insertHighlightToDoc, hd1, hd2, hd3, hd4]
      rw [if_pos (hlen _)]
      simp [h9]
  · intro s b0 bs hb
    rcases hn : (parseSelectionForInsert data.selectedText "\nSource: "
        (if data.pageTitle = "" then "Untitled" else data.pageTitle)
        (" " ++ data.timestamp)).numberedRanges with _ | ⟨n0, ns⟩
    · simp [listFormatRequests, hb, hn, isBulletPresetReq]
    · simp [listFormatRequests, hb, hn, isBulletPresetReq]
  · intro s n0 ns hn
    rcases hb : (parseSelectionForInsert data.selectedText "\nSource: "
        (if data.pageTitle = "" then "Untitled" else data.pageTitle)
        (" " ++ data.timestamp)).bulletRanges with _ | ⟨b0, bs⟩
    · simp [listFormatRequests, hb, hn, isNumberedPresetReq]
    · simp [listFormatRequests, hb, hn, isNumberedPresetReq]

/-- C10 (witness): for the selection `"- a\n1. b"` inserted at index 5, the
single bullet-preset formatting request spans the recorded bullet range
offset by 5. -/
theorem listFormatting_single_contiguous_call_witness :
    (let p := parseSelectionForInsert "- a\n1. b" "\nSource: "
        (if ("T" : String) = "" then "Untitled" else "T") (" " ++ "ts")
     (listFormatRequests 5 p.bulletRanges p.numberedRanges).filter isBulletPresetReq
       = [.createParagraphBullets (5 + (((⟨1, 3⟩ : TextRange)).start : Int))
            (5 + ((([(⟨1, 3⟩ : TextRange)].getLastD ⟨0, 0⟩).endIdx : Int)))
            "BULLET_DISC_CIRCLE_SQUARE"]) :=
  (listFormatting_single_contiguous_call ⟨.ok (), .ok (), .ok ()⟩
    ⟨.ok (), .ok 100, .ok (), .ok ()⟩ ⟨"- a\n1. b", "u", "T", "ts"⟩ 5 100
    rfl rfl rfl rfl rfl rfl rfl).2.2.1 5 ⟨1, 3⟩ [] (by decide)

/-- `if e > m then e else m` is `max m e`. -/
theorem if_gt_eq_max (m e : Nat) : (if e > m then e else m) = max m e := by
  rcases le_total e m with h | h
  · rw [if_neg (by omega : ¬ e > m), Nat.max_eq_left h]
  · rcases eq_or_lt_of_le h with rfl | h'
    · simp
    · rw [if_pos h', Nat.max_eq_right (le_of_lt h')]

/-- `setLast` preserves length. -/
theorem setLast_length (xs : List (Option Nat)) (v : Nat) :
    (setLast xs v).length = xs.length := by
  induction xs with
  | nil => rfl
  | cons x xs ih =>
    cases xs with
    | nil => rfl
    | cons y ys =>
      simp only [setLast, List.length_cons]
      simpa using ih

/-- `setLast` on a list whose last element is `none`. -/
theorem setLast_append_none (cs : List (Option Nat)) (v : Nat) :
    setLast (cs ++ [none]) v = cs ++ [some v] := by
  induction cs with
  | nil => rfl
  | cons c cs ih =>
    cases cs with
    | nil => rfl
    | cons d ds =>
      exact congrArg (List.cons c) ih

/-- The heading branch of `stepSectionEl`. -/
theorem stepSectionEl_heading (st : SectionsState) (el : DocElement)
    (h : isHeadingEl el = true) :
    stepSectionEl st el =
      { maxEnd := max st.maxEnd (elEnd el)
        lastContentEnd := st.lastContentEnd
        headingLabels := st.headingLabels ++ [headingLabelOf el]
        sectionEndIndices :=
          (if st.headingLabels.isEmpty then st.sectionEndIndices
           else setLast st.sectionEndIndices (max 1 (st.lastContentEnd - 1))) ++ [none] } := by
  simp only [stepSectionEl, h, if_true, if_gt_eq_max]

/-- The body branch of `stepSectionEl`. -/
theorem stepSectionEl_body (st : SectionsState) (el : DocElement)
    (h : isHeadingEl el = false) :
    stepSectionEl st el =
      { maxEnd := max st.maxEnd (elEnd el)
        lastContentEnd := elEnd el
        headingLabels := st.headingLabels
        sectionEndIndices := st.sectionEndIndices } := by
  simp only [stepSectionEl, h, if_false, if_gt_eq_max, Bool.false_eq_true]

/-- Invariant of the section walk: the running maximum is at least 1 and at
least the last body end; labels and indices stay equally long; and the
closed section indices (everything before the trailing open `none`) are
non-decreasing, at least 1, and bounded by `max 1 (lastContentEnd - 1)`. -/
def SecInv (st : SectionsState) : Prop :=
  1 ≤ st.maxEnd
  ∧ st.lastContentEnd ≤ st.maxEnd
  ∧ st.headingLabels.length = st.sectionEndIndices.length
  ∧ ((st.sectionEndIndices = [] ∧ st.headingLabels = [])
     ∨ ∃ closed : List Nat,
         st.sectionEndIndices = closed.map some ++ [none]
         ∧ List.Pairwise (· ≤ ·) closed
         ∧ ∀ v ∈ closed, 1 ≤ v ∧ v ≤ max 1 (st.lastContentEnd - 1))

/-- The section walk preserves `SecInv`, provided the element end offsets
from the current position on are pairwise non-decreasing and dominate the
current `lastContentEnd` (unless it is still the initial 1). -/
theorem secFold_inv (content : List DocElement) :
    ∀ st : SectionsState,
      List.Pairwise (· ≤ ·) (content.map elEnd) →
      (st.lastContentEnd = 1 ∨ ∀ el' ∈ content, st.lastContentEnd ≤ elEnd el') →
      SecInv st → SecInv (content.foldl stepSectionEl st) := by
  induction content with
  | nil => intro st _ _ h; simpa using h
  | cons el rest ih =>
    intro st hpw hlce hinv
    rw [List.foldl_cons]
    have hpw' : List.Pairwise (· ≤ ·) (rest.map elEnd) := by
      simp only [List.map_cons, List.pairwise_cons] at hpw
      exact hpw.2
    have hhead : ∀ el' ∈ rest, elEnd el ≤ elEnd el' := by
      intro el' hm
      simp only [List.map_cons, List.pairwise_cons] at hpw
      exact hpw.1 _ (List.mem_map_of_mem _ hm)
    obtain ⟨i1, i2, i3, i4⟩ := hinv
    cases hh : isHeadingEl el with
    | true =>
      rw [stepSectionEl_heading st el hh]
      apply ih
      · exact hpw'
      · rcases hlce with h | h
        · exact Or.inl h
        · exact Or.inr (fun el' hm => h el' (List.mem_cons_of_mem _ hm))
      · rcases i4 with ⟨hsi, hlb⟩ | ⟨closed, hc, pc, bc⟩
        · refine ⟨le_trans i1 (le_max_left _ _), le_trans i2 (le_max_left _ _), ?_, ?_⟩
          · simp [hsi, hlb]
          · refine Or.inr ⟨[], ?_, ?_, ?_⟩
            · simp [hsi, hlb]
            · simp
            · simp
        · have hne : st.headingLabels ≠ [] := by
            intro hx
            rw [hx, hc] at i3
            simp at i3
          have hemp : st.headingLabels.isEmpty = false := by
            cases hl : st.headingLabels with
            | nil => exact absurd hl hne
            | cons a as => rfl
          refine ⟨le_trans i1 (le_max_left _ _), le_trans i2 (le_max_left _ _), ?_, ?_⟩
          · simp only [hemp, if_false, Bool.false_eq_true, List.length_append,
              setLast_length, List.length_cons, i3]
            simp
          · refine Or.inr ⟨closed ++ [max 1 (st.lastContentEnd - 1)], ?_, ?_, ?_⟩
            · rw [hemp, hc]
              simp only [if_false, Bool.false_eq_true, setLast_append_none, List.map_append]
              simp
            · rw [List.pairwise_append]
              refine ⟨pc, by simp, ?_⟩
              intro a ha b hb
              simp only [List.mem_singleton] at hb
              subst hb
              exact (bc a ha).2
            · intro w hw
              simp only [List.mem_append, List.mem_singleton] at hw
              rcases hw with hw | rfl
              · exact bc w hw
              · exact ⟨le_max_left _ _, le_refl _⟩
    | false =>
      rw [stepSectionEl_body st el hh]
      apply ih
      · exact hpw'
      · exact Or.inr hhead
      · have hle : st.lastContentEnd = 1 ∨ st.lastContentEnd ≤ elEnd el := by
          rcases hlce with h | h
          · exact Or.inl h
          · exact Or.inr (h el (List.mem_cons_self _ _))
        have hstep : max 1 (st.lastContentEnd - 1) ≤ max 1 (elEnd el - 1) := by
          rcases hle with h | h
          · simp [h]
          · exact max_le_max (le_refl 1) (Nat.sub_le_sub_right h 1)
        refine ⟨le_trans i1 (le_max_left _ _), le_max_right _ _, i3, ?_⟩
        rcases i4 with ⟨hsi, hlb⟩ | ⟨closed, hc, pc, bc⟩
        · exact Or.inl ⟨hsi, hlb⟩
        · refine Or.inr ⟨closed, hc, pc, ?_⟩
          intro w hw
          exact ⟨(bc w hw).1, le_trans (bc w hw).2 hstep⟩

/-- The walk's running maximum is the fold of `max` over the end offsets. -/
theorem secFold_maxEnd (content : List DocElement) :
    ∀ st : SectionsState,
      (content.foldl stepSectionEl st).maxEnd
        = content.foldl (fun m el => max m (elEnd el)) st.maxEnd := by
  induction content with
  | nil => intro st; rfl
  | cons el rest ih =>
    intro st
    rw [List.foldl_cons, List.foldl_cons, ih]
    congr 1
    cases hh : isHeadingEl el with
    | true => rw [stepSectionEl_heading st el hh]
    | false => rw [stepSectionEl_body st el hh]

/-- Mapping `index` over the zipped outline entries recovers the closed
index list. -/
theorem zipWith_sections_index (m : Nat) :
    ∀ (ls : List String) (cs : List Nat), ls.length = cs.length →
      (List.zipWith (fun l o => DocSection.mk ("End of section: " ++ l) (o.getD m))
        ls (cs.map some)).map DocSection.index = cs := by
  intro ls
  induction ls with
  | nil =>
    intro cs h
    cases cs with
    | nil => rfl
    | cons c cs => simp at h
  | cons l ls ih =>
    intro cs h
    cases cs with
    | nil => simp at h
    | cons c cs =>
      simp only [List.map_cons, List.zipWith_cons_cons, Option.getD_some, List.map_cons]
      rw [ih cs (by simpa using h)]

/-- C4 (amended): for every document structure whose element end offsets are
non-decreasing in document order (which the Docs API guarantees for
`body.content`), the outline's first entry is `{At the beginning, 1}`, its
last entry is `{At the end, m}` where `m` is the running maximum of the end
offsets (starting from 1), and the outline indices are monotonically
non-decreasing. -/
theorem getDocumentSections_outline (content : List DocElement)
    (hsorted : List.Chain' (· ≤ ·) (content.map elEnd)) :
    (getDocumentSections content).head? = some ⟨"At the beginning", 1⟩
    ∧ (getDocumentSections content).getLast?
        = some ⟨"At the end", content.foldl (fun m el => max m (elEnd el)) 1⟩
    ∧ List.Chain' (· ≤ ·) ((getDocumentSections content).map DocSection.index) := by
  have hpw : List.Pairwise (· ≤ ·) (content.map elEnd) :=
    List.chain'_iff_pairwise.mp hsorted
  have hinv : SecInv (content.foldl stepSectionEl ⟨1, 1, [], []⟩) :=
    secFold_inv content ⟨1, 1, [], []⟩ hpw (Or.inl rfl)
      ⟨le_refl 1, le_refl 1, rfl, Or.inl ⟨rfl, rfl⟩⟩
  have hmax : (content.foldl stepSectionEl ⟨1, 1, [], []⟩).maxEnd
      = content.foldl (fun m el => max m (elEnd el)) 1 :=
    secFold_maxEnd content ⟨1, 1, [], []⟩
  unfold getDocumentSections
  dsimp only
  obtain ⟨i1, i2, i3, i4⟩ := hinv
  rcases i4 with ⟨hsi, hlb⟩ | ⟨closed, hc, pc, bc⟩
  · rw [hsi, hlb]
    refine ⟨rfl, ?_, ?_⟩
    · simp [setLast, hmax]
    · simp only [setLast, List.zipWith_nil_left, List.nil_append, List.map_cons,
        List.map_nil]
      simp [List.chain'_cons, i1]
  · have hlen : (content.foldl stepSectionEl ⟨1, 1, [], []⟩).headingLabels.length
        = closed.length + 1 := by
      rw [i3, hc]
      simp
    have hvmax : max 1 ((content.foldl stepSectionEl ⟨1, 1, [], []⟩).lastContentEnd - 1)
        ≤ (content.foldl stepSectionEl ⟨1, 1, [], []⟩).maxEnd :=
      max_le i1 (by omega)
    have hzip := zipWith_sections_index
      (content.foldl stepSectionEl ⟨1, 1, [], []⟩).maxEnd
      (content.foldl stepSectionEl ⟨1, 1, [], []⟩).headingLabels
      (closed ++ [max 1 ((content.foldl stepSectionEl ⟨1, 1, [], []⟩).lastContentEnd - 1)])
      (by rw [hlen]; simp)
    simp only [List.map_append, List.map_cons, List.map_nil] at hzip
    rw [hc, setLast_append_none]
    refine ⟨rfl, ?_, ?_⟩
    · simp only [← List.cons_append, List.getLast?_concat, hmax]
    · simp only [List.map_cons, List.map_append, List.map_nil, hzip]
      rw [List.chain'_iff_pairwise]
      refine List.Pairwise.cons ?_ ?_
      · intro x hx
        simp only [List.append_eq, List.mem_append, List.mem_singleton] at hx
        rcases hx with (hx | rfl) | rfl
        · exact (bc x hx).1
        · exact le_max_left _ _
        · exact i1
      · refine List.pairwise_append.mpr ⟨?_, by simp, ?_⟩
        · refine List.pairwise_append.mpr ⟨pc, by simp, ?_⟩
          intro a ha b hb
          simp only [List.mem_singleton] at hb
          subst hb
          exact (bc a ha).2
        · intro a ha b hb
          simp only [List.mem_singleton] at hb
          subst hb
          simp only [List.append_eq, List.mem_append, List.mem_singleton] at ha
          rcases ha with ha | rfl
          · exact le_trans (bc a ha).2 hvmax
          · exact hvmax

/-- C4 (witness): the outline bounds and monotonicity for the concrete
Intro/Methods document, whose end offsets 7, 50, 58, 120 are sorted. -/
theorem getDocumentSections_outline_witness :
    (getDocumentSections introMethodsDoc).head? = some ⟨"At the beginning", 1⟩
    ∧ (getDocumentSections introMethodsDoc).getLast?
        = some ⟨"At the end", introMethodsDoc.foldl (fun m el => max m (elEnd el)) 1⟩
    ∧ List.Chain' (· ≤ ·) ((getDocumentSections introMethodsDoc).map DocSection.index) :=
  getDocumentSections_outline introMethodsDoc
    (by
      have h : introMethodsDoc.map elEnd = [7, 50, 58, 120] := by decide
      rw [h]
      simp [List.chain'_cons])
